import Mathlib

/-!
Verification development for the gmail-mcp repository.

The source is TypeScript. Strings are modelled as lists of byte values
(`Bytes := List Nat`, UTF-8 code units), so that "byte for byte" claims are
meaningful. The Node `Buffer` base64 codec is modelled explicitly at the
sextet level; `Date.now()` is modelled as an explicit natural-number
parameter (the source calls it once per boundary, hence two parameters).
-/

namespace GmailMcp

/-- Byte strings: a JavaScript string viewed as its UTF-8 bytes. -/
abbrev Bytes := List Nat

/-- Bytes of an ASCII string literal (used for the literal fragments the
source concatenates into header lines and status messages). -/
def ascii (s : String) : Bytes := s.toList.map Char.toNat

/-- CRLF separator used by `lines.join` with CRLF in `buildRawEmail`. -/
def crlf : Bytes := [13, 10]

/-- Join a list of lines with a separator, as JavaScript `Array.join`. -/
def joinSep (sep : Bytes) : List Bytes → Bytes
  | [] => []
  | [l] => l
  | l :: rest => l ++ sep ++ joinSep sep rest

/-- Value of the base64 alphabet at index `n` (`A-Z a-z 0-9 + /`), as the
byte of the corresponding character. Indices `≥ 64` never arise for valid
input; the final branch returns the `/` byte. -/
def sextetByte (n : Nat) : Nat :=
  if n < 26 then 65 + n
  else if n < 52 then 97 + (n - 26)
  else if n < 62 then 48 + (n - 52)
  else if n = 62 then 43
  else 47

/-- Index of a base64 alphabet byte (inverse of `sextetByte`); bytes outside
the alphabet fall through to 63, they never arise for valid input. -/
def byteSextet (b : Nat) : Nat :=
  if 65 ≤ b ∧ b ≤ 90 then b - 65
  else if 97 ≤ b ∧ b ≤ 122 then 26 + (b - 97)
  else if 48 ≤ b ∧ b ≤ 57 then 52 + (b - 48)
  else if b = 43 then 62
  else 63

/-- Base64 sextet stream of a byte string (three bytes become four sextets;
a trailing group of one or two bytes becomes two or three sextets), as
produced by `Buffer.toString(base64)` before the alphabet map and before
padding is appended. -/
def b64encode : Bytes → List Nat
  | a :: b :: c :: rest =>
      (a / 4) :: ((a % 4) * 16 + b / 16) :: ((b % 16) * 4 + c / 64) :: (c % 64) ::
        b64encode rest
  | [a, b] => [a / 4, (a % 4) * 16 + b / 16, (b % 16) * 4]
  | [a] => [a / 4, (a % 4) * 16]
  | [] => []

/-- Bytes recovered from a base64 sextet stream (four sextets give three
bytes; a trailing group of three or two sextets gives two bytes or one; a
lone trailing sextet is dropped), as `Buffer.from(s, base64)`. -/
def b64decode : List Nat → Bytes
  | s1 :: s2 :: s3 :: s4 :: rest =>
      (s1 * 4 + s2 / 16) :: ((s2 % 16) * 16 + s3 / 4) :: ((s3 % 4) * 64 + s4) ::
        b64decode rest
  | [s1, s2, s3] => [s1 * 4 + s2 / 16, (s2 % 16) * 16 + s3 / 4]
  | [s1, s2] => [s1 * 4 + s2 / 16]
  | _ => []

/-- Padding bytes (`=` is byte 61) appended by `Buffer.toString(base64)`. -/
def b64pad (l : Bytes) : Bytes :=
  if l.length % 3 = 1 then [61, 61]
  else if l.length % 3 = 2 then [61]
  else []

/-- Model of `Buffer.from(data).toString(base64)`: alphabet bytes of the
sextet stream followed by `=` padding. -/
def toBase64 (l : Bytes) : Bytes := (b64encode l).map sextetByte ++ b64pad l

/-- Byte map replacing the plus byte by dash and the slash byte by underscore. -/
def stdToUrl (b : Nat) : Nat := if b = 43 then 45 else if b = 47 then 95 else b

/-- Byte map replacing the dash byte by plus and the underscore byte by slash. -/
def urlToStd (b : Nat) : Nat := if b = 45 then 43 else if b = 95 then 47 else b

/-- Model of the trailing-padding strip: drop trailing `=` bytes. -/
def stripEq (l : Bytes) : Bytes := (l.reverse.dropWhile (fun b => b == 61)).reverse

/-- Model of the source helper `encodeBase64Url`: standard base64 text, `+`
and `/` replaced by `-` and `_`, trailing padding stripped. -/
def encodeBase64Url (data : Bytes) : Bytes := stripEq ((toBase64 data).map stdToUrl)

/-- Model of the source helper `decodeBase64Url`: substitute the url-safe
alphabet back, then decode as `Buffer.from(base64, base64)` (padding bytes
are ignored, remaining bytes are read as alphabet sextets; the model assumes
the input is base64/base64url text, which holds at every call site). -/
def decodeBase64Url (data : Bytes) : Bytes :=
  b64decode ((((data.map urlToStd).filter (fun b => b ≠ 61))).map byteSextet)

/-- Decimal digit bytes of a natural, most significant first, with a fuel
argument so that the recursion is structural; `n` itself is always enough
fuel since each step divides by ten. -/
def natDigitsGo : Nat → Nat → Bytes → Bytes
  | 0, _, acc => acc
  | fuel + 1, n, acc =>
      if n = 0 then acc else natDigitsGo fuel (n / 10) ((48 + n % 10) :: acc)

/-- Decimal representation of a natural number as a byte string, modelling
JavaScript template interpolation of a number. -/
def natDigits (n : Nat) : Bytes := if n = 0 then [48] else natDigitsGo n n []

/-- Attachment input of `buildRawEmail` and of the webhook: `content` is the
base64 text supplied by the caller, inlined verbatim by the encoder. -/
structure Attachment where
  filename : Bytes
  mimeType : Bytes
  content : Bytes
deriving DecidableEq

/-- Options record of `buildRawEmail` (the `to` and `from` fields are
renamed `toAddr` and `fromAddr` because both are reserved words in Lean).
`threadId` is accepted by the source but never used in the function
body. -/
structure EmailOptions where
  toAddr : Bytes
  subject : Bytes
  body : Bytes
  htmlBody : Option Bytes := none
  cc : Option (List Bytes) := none
  bcc : Option (List Bytes) := none
  fromAddr : Option Bytes := none
  threadId : Option Bytes := none
  inReplyTo : Option Bytes := none
  references : Option Bytes := none
  attachments : Option (List Attachment) := none
deriving DecidableEq

/-- Mixed boundary token: the template string interpolating `Date.now()`
after the fixed prefix. -/
def mixedBoundary (now : Nat) : Bytes := ascii "boundary_" ++ natDigits now

/-- Alternative boundary token: second template string, second call of
`Date.now()`. -/
def altBoundaryTok (now : Nat) : Bytes := ascii "alt_boundary_" ++ natDigits now

/-- Boundary delimiter line `--<boundary>`. -/
def dashBnd (b : Bytes) : Bytes := ascii "--" ++ b

/-- Closing delimiter line `--<boundary>--`. -/
def closeBnd (b : Bytes) : Bytes := ascii "--" ++ b ++ ascii "--"

/-- Header line pushed for an optional string field guarded by JavaScript
truthiness (absent and empty both skip the line). -/
def optHeaderLine (tag : Bytes) (v : Option Bytes) : List Bytes :=
  match v with
  | some f => if f.isEmpty then [] else [tag ++ f]
  | none => []

/-- Header line pushed for an optional recipient list guarded by
`list?.length` (absent and empty both skip the line); present lists are
comma-joined. -/
def listHeaderLine (tag : Bytes) (v : Option (List Bytes)) : List Bytes :=
  match v with
  | some cs => if cs.isEmpty then [] else [tag ++ joinSep (ascii ", ") cs]
  | none => []

/-- Header block of `buildRawEmail`, in push order: To, optional From,
optional Cc and Bcc, the UTF-8 base64 encoded-word Subject, optional
In-Reply-To and References, and MIME-Version. -/
def headerLines (o : EmailOptions) : List Bytes :=
  [ascii "To: " ++ o.toAddr]
    ++ optHeaderLine (ascii "From: ") o.fromAddr
    ++ listHeaderLine (ascii "Cc: ") o.cc
    ++ listHeaderLine (ascii "Bcc: ") o.bcc
    ++ [ascii "Subject: =?UTF-8?B?" ++ toBase64 o.subject ++ ascii "?="]
    ++ optHeaderLine (ascii "In-Reply-To: ") o.inReplyTo
    ++ optHeaderLine (ascii "References: ") o.references
    ++ [ascii "MIME-Version: 1.0"]

/-- Lines of a plain-text body part: content type, transfer encoding, blank
separator, then the base64 of the body. -/
def plainPartLines (body : Bytes) : List Bytes :=
  [ascii "Content-Type: text/plain; charset=\"UTF-8\"",
   ascii "Content-Transfer-Encoding: base64",
   [],
   toBase64 body]

/-- Lines of a multipart/alternative group carrying a plain part then an
HTML part (used both at top level and nested under multipart/mixed; the
plain part always precedes the HTML part in the source push order). -/
def altGroupLines (boundary : Bytes) (body htmlBody : Bytes) : List Bytes :=
  [ascii "Content-Type: multipart/alternative; boundary=\"" ++ boundary ++ [34],
   [],
   dashBnd boundary,
   ascii "Content-Type: text/plain; charset=\"UTF-8\"",
   ascii "Content-Transfer-Encoding: base64",
   [],
   toBase64 body,
   dashBnd boundary,
   ascii "Content-Type: text/html; charset=\"UTF-8\"",
   ascii "Content-Transfer-Encoding: base64",
   [],
   toBase64 htmlBody,
   closeBnd boundary]

/-- Lines of one attachment part after its delimiter: content type with the
filename as `name`, base64 transfer encoding, disposition with the filename,
blank separator, then the caller-supplied content inlined verbatim. -/
def attachmentPartLines (a : Attachment) : List Bytes :=
  [ascii "Content-Type: " ++ a.mimeType ++ ascii "; name=\"" ++ a.filename ++ [34],
   ascii "Content-Transfer-Encoding: base64",
   ascii "Content-Disposition: attachment; filename=\"" ++ a.filename ++ [34],
   [],
   a.content]

/-- Lines pushed for one attachment inside the loop: the mixed delimiter
followed by the attachment part lines. -/
def attachmentLines (boundary : Bytes) (a : Attachment) : List Bytes :=
  dashBnd boundary :: attachmentPartLines a

/-- JavaScript truthiness of `options.attachments?.length`. -/
def attachmentsPresent (o : EmailOptions) : Bool :=
  match o.attachments with
  | some atts => !atts.isEmpty
  | none => false

/-- Body section of `buildRawEmail`: the three-way branch on attachments and
HTML body, in source push order. -/
def bodySectionLines (o : EmailOptions) (now altNow : Nat) : List Bytes :=
  let boundary := mixedBoundary now
  let altBoundary := altBoundaryTok altNow
  if attachmentsPresent o then
    [ascii "Content-Type: multipart/mixed; boundary=\"" ++ boundary ++ [34], []]
      ++ [dashBnd boundary]
      ++ (match o.htmlBody with
          | some hb => altGroupLines altBoundary o.body hb
          | none => plainPartLines o.body)
      ++ (o.attachments.getD []).flatMap (attachmentLines boundary)
      ++ [closeBnd boundary]
  else
    match o.htmlBody with
    | some hb => altGroupLines boundary o.body hb
    | none => plainPartLines o.body

/-- Full `lines` array of `buildRawEmail`. -/
def buildRawLines (o : EmailOptions) (now altNow : Nat) : List Bytes :=
  headerLines o ++ bodySectionLines o now altNow

/-- Model of `buildRawEmail`: lines joined with CRLF, url-safe base64
encoded, with the two `Date.now()` readings passed explicitly. -/
def buildRawEmail (o : EmailOptions) (now altNow : Nat) : Bytes :=
  encodeBase64Url (joinSep crlf (buildRawLines o now altNow))

/-- One entry of a Gmail `payload.headers` array; both fields may be null or
absent in the provider response. -/
structure MsgHeader where
  name : Option Bytes := none
  value : Option Bytes := none
deriving DecidableEq

/-- ASCII lower-casing of a byte, modelling `toLowerCase` on the header
names that actually occur (ASCII). -/
def lowerByte (b : Nat) : Nat := if 65 ≤ b ∧ b ≤ 90 then b + 32 else b

/-- Model of the source helper `getHeader`: case-insensitive find on the
header name, first match wins, missing name or value yields the empty
string. -/
def getHeader (headers : List MsgHeader) (name : Bytes) : Bytes :=
  match headers.find? (fun h =>
      match h.name with
      | some n => n.map lowerByte == name.map lowerByte
      | none => false) with
  | some h => h.value.getD []
  | none => []

/-- Body record of a Gmail payload or part: inline base64url data and, for
attachments, a provider-side reference identifier and size. -/
structure PartBody where
  data : Option Bytes := none
  attachmentId : Option Bytes := none
  size : Option Nat := none
deriving DecidableEq

/-- One MIME part of a Gmail payload, as consumed by `parseMessage`. -/
structure MsgPart where
  mimeType : Option Bytes := none
  body : Option PartBody := none
deriving DecidableEq

/-- Payload of a Gmail message: headers, optional sub-parts, and a top-level
body record. -/
structure Payload where
  headers : Option (List MsgHeader) := none
  parts : Option (List MsgPart) := none
  body : Option PartBody := none
deriving DecidableEq

/-- Gmail message record, with all of the fields `parseMessage` reads. -/
structure GmailMessage where
  id : Option Bytes := none
  threadId : Option Bytes := none
  snippet : Option Bytes := none
  labelIds : Option (List Bytes) := none
  payload : Option Payload := none
deriving DecidableEq

/-- Result record of `parseMessage` (and of the search-result loop).
`id` and `threadId` are kept optional because the source casts them without
defaulting; a missing `snippet` or `labelIds` defaults as in the source. -/
structure ParsedMessage where
  id : Option Bytes
  threadId : Option Bytes
  fromAddr : Bytes
  toAddr : Bytes
  subject : Bytes
  date : Bytes
  snippet : Bytes
  body : Bytes
  labels : List Bytes
deriving DecidableEq

/-- Decoded body of an optional part-body record: JavaScript truthiness of
`data` (absent or empty string leaves the body empty), otherwise
`decodeBase64Url`. -/
def decodeBodyData (b : Option PartBody) : Bytes :=
  match b with
  | some pb =>
      match pb.data with
      | some data => if data.isEmpty then [] else decodeBase64Url data
      | none => []
  | none => []

/-- Model of the source `parseMessage`: body from the first text/plain
sub-part, else the first text/html sub-part, else (when there are no
sub-parts) the top-level payload body; headers looked up case-insensitively;
every missing field degrades to a default instead of failing. -/
def parseMessage (message : GmailMessage) : ParsedMessage :=
  let msgHeaders := ((message.payload.map Payload.headers).join).getD []
  let body : Bytes :=
    match message.payload with
    | none => []
    | some payload =>
        match payload.parts with
        | some parts =>
            let textPart := parts.find? (fun p => p.mimeType == some (ascii "text/plain"))
            let htmlPart := parts.find? (fun p => p.mimeType == some (ascii "text/html"))
            match textPart with
            | some part => decodeBodyData part.body
            | none =>
                match htmlPart with
                | some part => decodeBodyData part.body
                | none => []
        | none => decodeBodyData payload.body
  { id := message.id
    threadId := message.threadId
    fromAddr := getHeader msgHeaders (ascii "From")
    toAddr := getHeader msgHeaders (ascii "To")
    subject := getHeader msgHeaders (ascii "Subject")
    date := getHeader msgHeaders (ascii "Date")
    snippet := message.snippet.getD []
    body := body
    labels := message.labelIds.getD [] }

/-- Modelled from the spec, section 4.2: body extraction prefers the first
sub-part declared text/plain, falls back to the first text/html sub-part,
uses the top-level payload body when there are no sub-parts, and yields the
empty string when no decodable body is found. Stated in the words of the
spec, to be compared with the body computed by `parseMessage`. -/
def specExtractBody (message : GmailMessage) : Bytes :=
  match message.payload with
  | none => []
  | some payload =>
      match payload.parts with
      | some parts =>
          let chosen :=
            match parts.find? (fun p => p.mimeType == some (ascii "text/plain")) with
            | some p => some p
            | none => parts.find? (fun p => p.mimeType == some (ascii "text/html"))
          match chosen with
          | some p => decodeBodyData p.body
          | none => []
      | none => decodeBodyData payload.body

/-- Search-result construction of `search_emails`: one record per listed
message, built from the metadata response with `body` hard-coded to the
empty string. -/
def searchResults (details : List GmailMessage) : List ParsedMessage :=
  details.map (fun data =>
    let msgHeaders := ((data.payload.map Payload.headers).join).getD []
    { id := data.id
      threadId := data.threadId
      fromAddr := getHeader msgHeaders (ascii "From")
      toAddr := getHeader msgHeaders (ascii "To")
      subject := getHeader msgHeaders (ascii "Subject")
      date := getHeader msgHeaders (ascii "Date")
      snippet := data.snippet.getD []
      body := []
      labels := data.labelIds.getD [] })

/-- Request body of `users.messages.batchModify` as assembled by
`batch_modify_emails`. -/
structure BatchModifyBody where
  ids : List Bytes
  addLabelIds : Option (List Bytes)
  removeLabelIds : Option (List Bytes)
deriving DecidableEq

/-- Model of the `batch_modify_emails` handler: the forwarded request body
and the success text, which reports the length of the capped list. -/
def batch_modify_emails (messageIds : List Bytes)
    (addLabels removeLabels : Option (List Bytes)) : BatchModifyBody × Bytes :=
  let ids := messageIds.take 50
  (⟨ids, addLabels, removeLabels⟩,
   ascii "Batch modified " ++ natDigits ids.length ++ ascii " emails.")

/-- Model of the `batch_delete_emails` handler: the forwarded id list and
the success text, which reports the length of the capped list. -/
def batch_delete_emails (messageIds : List Bytes) : List Bytes × Bytes :=
  let ids := messageIds.take 50
  (ids, ascii "Batch deleted " ++ natDigits ids.length ++ ascii " emails.")

/-- JavaScript truthiness of an optional string. -/
def truthyStr (o : Option Bytes) : Bool :=
  match o with
  | some s => !s.isEmpty
  | none => false

/-- JavaScript truthiness of an optional boolean. -/
def truthyBool (o : Option Bool) : Bool := o.getD false

/-- Input record of the `create_filter` tool (`from` renamed `fromAddr`). -/
structure CreateFilterInput where
  fromAddr : Option Bytes := none
  toAddr : Option Bytes := none
  subject : Option Bytes := none
  query : Option Bytes := none
  addLabelIds : Option (List Bytes) := none
  removeLabelIds : Option (List Bytes) := none
  forward : Option Bytes := none
  star : Option Bool := none
  markImportant : Option Bool := none
  markRead : Option Bool := none
  archive : Option Bool := none
  trash : Option Bool := none
deriving DecidableEq

/-- Filter action record sent to `users.settings.filters.create`. -/
structure FilterAction where
  addLabelIds : Option (List Bytes)
  removeLabelIds : Option (List Bytes)
  forward : Option Bytes
deriving DecidableEq

/-- Model of the `action` object assembled by `create_filter`, following
the source assignment order: the optional explicit lists are assigned
first, then `trash` overwrites the add list with explicit adds plus TRASH,
then a non-empty `removeIds` (explicit removes plus UNREAD for `markRead`
and INBOX for `archive`) overwrites the remove list, and finally a
non-empty `addIds` (explicit adds plus STARRED for `star` and IMPORTANT for
`markImportant`) overwrites the add list again. -/
def createFilterAction (i : CreateFilterInput) : FilterAction :=
  let addAfterTrash : Option (List Bytes) :=
    if truthyBool i.trash then some ((i.addLabelIds.getD []) ++ [ascii "TRASH"])
    else i.addLabelIds
  let removeIds : List Bytes :=
    (i.removeLabelIds.getD [])
      ++ (if truthyBool i.markRead then [ascii "UNREAD"] else [])
      ++ (if truthyBool i.archive then [ascii "INBOX"] else [])
  let removeFinal : Option (List Bytes) :=
    if !removeIds.isEmpty then some removeIds else i.removeLabelIds
  let addIds : List Bytes :=
    (i.addLabelIds.getD [])
      ++ (if truthyBool i.star then [ascii "STARRED"] else [])
      ++ (if truthyBool i.markImportant then [ascii "IMPORTANT"] else [])
  let addFinal : Option (List Bytes) :=
    if !addIds.isEmpty then some addIds else addAfterTrash
  { addLabelIds := addFinal
    removeLabelIds := removeFinal
    forward := if truthyStr i.forward then i.forward else none }

/-- Reply subject computed by `reply_to_email` from the Subject header of
the original message: prepend `Re: ` unless the subject already starts with
`Re:`. -/
def replySubjectOf (msgHeaders : List MsgHeader) : Bytes :=
  let origSubject := getHeader msgHeaders (ascii "Subject")
  if (ascii "Re:").isPrefixOf origSubject then origSubject
  else ascii "Re: " ++ origSubject

/-- Options handed to `buildRawEmail` by `reply_to_email`: recipient from
the From header, optional reply-all carbon copies, the reply subject rule,
and threading headers. -/
def replyToEmailOptions (msgHeaders : List MsgHeader) (body : Bytes)
    (htmlBody : Option Bytes) (replyAll : Option Bool) : EmailOptions :=
  let toHdr := getHeader msgHeaders (ascii "To")
  let ccHdr := getHeader msgHeaders (ascii "Cc")
  let messageIdHeader := getHeader msgHeaders (ascii "Message-ID")
  let references := getHeader msgHeaders (ascii "References")
  { toAddr := getHeader msgHeaders (ascii "From")
    subject := replySubjectOf msgHeaders
    body := body
    htmlBody := htmlBody
    cc := if truthyBool replyAll
      then some (([toHdr, ccHdr]).filter (fun s => !s.isEmpty))
      else none
    inReplyTo := some messageIdHeader
    references := some (if references.isEmpty then messageIdHeader
      else references ++ [32] ++ messageIdHeader) }

/-- Parsed JSON payload of the webhook request. A field is `some` exactly
when it is present with the right JavaScript type (`body` in particular is
`some` exactly when the JSON value is a string). -/
structure WebhookPayload where
  toAddr : Option Bytes := none
  subject : Option Bytes := none
  body : Option Bytes := none
  attachments : Option (List Attachment) := none
deriving DecidableEq

/-- Environment of the webhook route. -/
structure WebhookEnv where
  WEBHOOK_SECRET : Option Bytes := none
  GMAIL_CLIENT_ID : Option Bytes := none
  GMAIL_CLIENT_SECRET : Option Bytes := none
  GMAIL_REFRESH_TOKEN : Option Bytes := none
deriving DecidableEq

/-- Inbound webhook request: the Authorization header and the outcome of
`request.json()` (`Except.error` carries the message of the exception a
malformed JSON body raises). -/
structure WebhookRequest where
  authorization : Option Bytes := none
  json : Except Bytes WebhookPayload

/-- Outcome of the provider send call, supplied to the handler model as an
explicit parameter. -/
inductive SendOutcome where
  | ok (messageId : Option Bytes)
  | fail (message : Bytes)
deriving DecidableEq

/-- JSON body of a webhook response. -/
inductive ResponseBody where
  | errBody (message : Bytes)
  | okBody (messageId : Option Bytes)
deriving DecidableEq

/-- HTTP response of the webhook route. -/
structure WebhookResponse where
  status : Nat
  body : ResponseBody
deriving DecidableEq

/-- Error message thrown by `getCredentialsFromEnv` when a credential is
missing. -/
def credsMissingMsg : Bytes :=
  ascii "Missing GMAIL_CLIENT_ID, GMAIL_CLIENT_SECRET, or GMAIL_REFRESH_TOKEN. Set them in Vercel env (or .env.local)."

/-- Validation error message of the webhook route. -/
def validationMsg : Bytes := ascii "Missing or invalid: to, subject, body"

/-- Model of the webhook `POST` handler after the bearer check: JSON parse
failure surfaces through the catch as a 500; missing or falsy `to` or
`subject`, or a non-string `body`, yields a 400; missing environment
credentials throw and surface as a 500; otherwise the provider outcome maps
to the 200 success body or a 500 with the error message. -/
def webhookAfterAuth (env : WebhookEnv) (req : WebhookRequest)
    (send : SendOutcome) : WebhookResponse :=
  match req.json with
  | Except.error m => ⟨500, ResponseBody.errBody m⟩
  | Except.ok payload =>
      if truthyStr payload.toAddr && truthyStr payload.subject && payload.body.isSome then
        if truthyStr env.GMAIL_CLIENT_ID && truthyStr env.GMAIL_CLIENT_SECRET
            && truthyStr env.GMAIL_REFRESH_TOKEN then
          match send with
          | SendOutcome.ok mid => ⟨200, ResponseBody.okBody mid⟩
          | SendOutcome.fail m => ⟨500, ResponseBody.errBody m⟩
        else ⟨500, ResponseBody.errBody credsMissingMsg⟩
      else ⟨400, ResponseBody.errBody validationMsg⟩

/-- Model of the webhook `POST` handler: when `WEBHOOK_SECRET` is truthy,
an Authorization header differing from `Bearer <secret>` is rejected with
401 before anything else happens. -/
def sendEmailPOST (env : WebhookEnv) (req : WebhookRequest)
    (send : SendOutcome) : WebhookResponse :=
  match env.WEBHOOK_SECRET with
  | some secret =>
      if secret.isEmpty then webhookAfterAuth env req send
      else if req.authorization = some (ascii "Bearer " ++ secret) then
        webhookAfterAuth env req send
      else ⟨401, ResponseBody.errBody (ascii "Unauthorized")⟩
  | none => webhookAfterAuth env req send

/-- Bearer-token gate of the webhook: every configured (truthy) secret is
matched exactly by the Authorization header. -/
def authPasses (env : WebhookEnv) (req : WebhookRequest) : Prop :=
  ∀ s, env.WEBHOOK_SECRET = some s → ¬s.isEmpty = true →
    req.authorization = some (ascii "Bearer " ++ s)

/-- Presence (JavaScript truthiness) of the three Gmail credentials in the
webhook environment. -/
def credsPresent (env : WebhookEnv) : Bool :=
  truthyStr env.GMAIL_CLIENT_ID && truthyStr env.GMAIL_CLIENT_SECRET
    && truthyStr env.GMAIL_REFRESH_TOKEN

/-- Validation predicate of the webhook payload: truthy `to` and `subject`
and a string `body`. -/
def payloadValid (p : WebhookPayload) : Bool :=
  truthyStr p.toAddr && truthyStr p.subject && p.body.isSome

/-- Top-level payload body of a simple (non-multipart) raw message: the
bytes after the first CRLF CRLF separator, which is how a provider locates
the body that it then hands back through `payload.body.data`. -/
def extractBody : Bytes → Bytes
  | [] => []
  | x :: rest =>
      if x = 13 ∧ rest.take 3 = [10, 13, 10] then rest.drop 3
      else extractBody rest

/-- Substring test on byte strings (true when `p` occurs contiguously
inside `l`). -/
def substrOf (p : Bytes) : Bytes → Bool
  | [] => p.isEmpty
  | x :: rest => p.isPrefixOf (x :: rest) || substrOf p rest

/-- Lines strictly after the first occurrence of the delimiter line. -/
def afterFirstDelim (d : Bytes) : List Bytes → List Bytes
  | [] => []
  | l :: rest => if l = d then rest else afterFirstDelim d rest

/-- Accumulate multipart parts: lines up to the next delimiter line `d`
form one part, and the close-delimiter line `c` ends the scan. -/
def splitPartsGo (d c : Bytes) : List Bytes → List Bytes → List (List Bytes)
  | acc, [] => [acc.reverse]
  | acc, l :: rest =>
      if l = c then [acc.reverse]
      else if l = d then acc.reverse :: splitPartsGo d c [] rest
      else splitPartsGo d c (l :: acc) rest

/-- Parts of a multipart section: groups of lines between consecutive
delimiter lines, starting after the first delimiter and ending at the
close delimiter. -/
def collectParts (d c : Bytes) (lines : List Bytes) : List (List Bytes) :=
  splitPartsGo d c [] (afterFirstDelim d lines)

/-- Field well-formedness used by the raw-message claims: genuine bytes
with no CR or LF. -/
def FieldOk (l : Bytes) : Prop := ∀ x ∈ l, x < 256 ∧ x ≠ 13 ∧ x ≠ 10

/-- Well-formedness of the caller-controlled option fields that end up
verbatim inside header lines, plus byte bounds on the bodies. -/
def OptionsFieldOk (o : EmailOptions) : Prop :=
  FieldOk o.toAddr ∧
  (∀ f, o.fromAddr = some f → FieldOk f) ∧
  (∀ cs, o.cc = some cs → ∀ c ∈ cs, FieldOk c) ∧
  (∀ bs, o.bcc = some bs → ∀ b ∈ bs, FieldOk b) ∧
  (∀ m, o.inReplyTo = some m → FieldOk m) ∧
  (∀ r, o.references = some r → FieldOk r) ∧
  (∀ x ∈ o.body, x < 256)

/-- Attachment used by the boundary-collision counterexample: its content
is the very boundary token generated at timestamp 0. -/
def collisionAttachment : Attachment :=
  { filename := ascii "f.bin", mimeType := ascii "application/octet-stream",
    content := ascii "boundary_0" }

/-- Message used by the boundary-collision counterexample. -/
def collisionMessage : EmailOptions :=
  { toAddr := ascii "a@b.com", subject := ascii "s", body := ascii "hi",
    attachments := some [collisionAttachment] }

/-- Webhook environment with a configured secret, for the 401 witness. -/
def wEnv401 : WebhookEnv := { WEBHOOK_SECRET := some (ascii "k") }

/-- Webhook request without a bearer token, for the 401 witness. -/
def wReq401 : WebhookRequest := { authorization := none, json := Except.ok {} }

/-- Webhook environment with the three Gmail credentials, for the success
witness. -/
def wEnvOk : WebhookEnv :=
  { GMAIL_CLIENT_ID := some (ascii "i"), GMAIL_CLIENT_SECRET := some (ascii "c"),
    GMAIL_REFRESH_TOKEN := some (ascii "r") }

/-- Valid webhook payload, for the success witness. -/
def wPayloadOk : WebhookPayload :=
  { toAddr := some (ascii "a@b"), subject := some (ascii "s"), body := some [] }

/-- Valid webhook request, for the success witness. -/
def wReqOk : WebhookRequest := { authorization := none, json := Except.ok wPayloadOk }

end GmailMcp

namespace GmailMcp

/-- Alphabet bytes are printable and distinct from the structural bytes the
development cares about (CR, LF, `-`, `=`, `_`, `"`). -/
theorem sextetByte_props (n : Nat) :
    43 ≤ sextetByte n ∧ sextetByte n ≤ 122 ∧ sextetByte n ≠ 13 ∧ sextetByte n ≠ 10 ∧
      sextetByte n ≠ 45 ∧ sextetByte n ≠ 61 ∧ sextetByte n ≠ 95 ∧ sextetByte n ≠ 34 := by
  unfold sextetByte
  split_ifs <;> omega

/-- Decoding inverts encoding at the alphabet level for sextet values. -/
theorem byteSextet_sextetByte (n : Nat) (h : n < 64) : byteSextet (sextetByte n) = n := by
  unfold sextetByte byteSextet
  split_ifs <;> omega

/-- Sextets produced from genuine bytes are below 64. -/
theorem b64encode_lt (l : Bytes) (h : ∀ x ∈ l, x < 256) : ∀ s ∈ b64encode l, s < 64 := by
  induction l using b64encode.induct with
  | case1 a b c rest ih =>
      intro s hs
      have ha := h a (by simp)
      have hb := h b (by simp)
      have hc := h c (by simp)
      simp only [b64encode, List.mem_cons] at hs
      rcases hs with rfl | rfl | rfl | rfl | hs
      · omega
      · omega
      · omega
      · omega
      · exact ih (fun x hx => h x (by simp [hx])) s hs
  | case2 a b =>
      intro s hs
      have ha := h a (by simp)
      have hb := h b (by simp)
      simp only [b64encode, List.mem_cons] at hs
      rcases hs with rfl | rfl | rfl | hs
      · omega
      · omega
      · omega
      · simp at hs
  | case3 a =>
      intro s hs
      have ha := h a (by simp)
      simp only [b64encode, List.mem_cons] at hs
      rcases hs with rfl | rfl | hs
      · omega
      · omega
      · simp at hs
  | case4 => intro s hs; simp [b64encode] at hs

/-- Sextet-level round trip: decoding the sextet stream of a byte string
yields the byte string back. -/
theorem b64decode_b64encode (l : Bytes) (h : ∀ x ∈ l, x < 256) :
    b64decode (b64encode l) = l := by
  induction l using b64encode.induct with
  | case1 a b c rest ih =>
      have ha := h a (by simp)
      have hb := h b (by simp)
      have hc := h c (by simp)
      have hrest := ih (fun x hx => h x (by simp [hx]))
      simp only [b64encode, b64decode, hrest, List.cons.injEq, and_true]
      refine ⟨by omega, by omega, by omega⟩
  | case2 a b =>
      have ha := h a (by simp)
      have hb := h b (by simp)
      simp only [b64encode, b64decode, List.cons.injEq, and_true]
      refine ⟨by omega, by omega⟩
  | case3 a =>
      have ha := h a (by simp)
      simp only [b64encode, b64decode, List.cons.injEq, and_true]
      omega
  | case4 => rfl

/-- Url-safe substitution is undone by the reverse substitution on alphabet
bytes, and never produces a padding byte from an alphabet byte. -/
theorem stdToUrl_sextetByte (n : Nat) :
    urlToStd (stdToUrl (sextetByte n)) = sextetByte n ∧ stdToUrl (sextetByte n) ≠ 61 := by
  unfold sextetByte stdToUrl urlToStd
  split_ifs <;> omega

/-- Padding bytes are all 61. -/
theorem b64pad_mem (l : Bytes) : ∀ x ∈ b64pad l, x = 61 := by
  unfold b64pad
  split_ifs <;> simp

/-- dropWhile is the identity on a list none of whose elements satisfy the
predicate. -/
theorem dropWhile_of_none (p : Nat → Bool) (l : Bytes) (h : ∀ x ∈ l, p x = false) :
    l.dropWhile p = l := by
  cases l with
  | nil => rfl
  | cons a t => simp [List.dropWhile, h a (by simp)]

/-- dropWhile jumps over a prefix all of whose elements satisfy the
predicate. -/
theorem dropWhile_append_of_all (p : Nat → Bool) (q l : Bytes) (h : ∀ x ∈ q, p x = true) :
    (q ++ l).dropWhile p = l.dropWhile p := by
  induction q with
  | nil => rfl
  | cons a t ih =>
      simp only [List.cons_append, List.dropWhile_cons, h a (by simp), if_true]
      exact ih (fun x hx => h x (by simp [hx]))

/-- Stripping trailing padding removes exactly an all-padding suffix when the
rest of the string has no padding byte. -/
theorem stripEq_append (xs p : Bytes) (hx : ∀ x ∈ xs, x ≠ 61) (hp : ∀ x ∈ p, x = 61) :
    stripEq (xs ++ p) = xs := by
  unfold stripEq
  rw [List.reverse_append]
  rw [dropWhile_append_of_all _ _ _ (by intro x hx2; simp at hx2; simp [hp x hx2])]
  rw [dropWhile_of_none _ _ (by intro x hx2; simp at hx2; simp [hx x hx2])]
  simp

/-- Computation rule for the url-safe encoder: it is the alphabet map of the
sextet stream with the two url substitutions, with no padding. -/
theorem encodeBase64Url_eq (data : Bytes) :
    encodeBase64Url data = (b64encode data).map (fun s => stdToUrl (sextetByte s)) := by
  unfold encodeBase64Url toBase64
  rw [List.map_append, List.map_map]
  refine stripEq_append _ _ ?_ ?_
  · intro x hx
    simp only [List.mem_map, Function.comp] at hx
    obtain ⟨s, _, rfl⟩ := hx
    exact (stdToUrl_sextetByte s).2
  · intro x hx
    simp only [List.mem_map] at hx
    obtain ⟨b, hb, rfl⟩ := hx
    have := b64pad_mem data b hb
    subst this
    rfl

/-- Round trip of the two source helpers: decoding an url-safe encoding
returns the original bytes. -/
theorem decodeBase64Url_encodeBase64Url (data : Bytes) (h : ∀ x ∈ data, x < 256) :
    decodeBase64Url (encodeBase64Url data) = data := by
  rw [encodeBase64Url_eq]
  unfold decodeBase64Url
  rw [List.map_map]
  have h1 : (b64encode data).map (urlToStd ∘ fun s => stdToUrl (sextetByte s)) =
      (b64encode data).map sextetByte := by
    refine List.map_congr_left ?_
    intro s _
    exact (stdToUrl_sextetByte s).1
  rw [h1]
  have h2 : ((b64encode data).map sextetByte).filter (fun b => b ≠ 61) =
      (b64encode data).map sextetByte := by
    rw [List.filter_eq_self]
    intro b hb
    simp only [List.mem_map] at hb
    obtain ⟨s, _, rfl⟩ := hb
    simpa using (sextetByte_props s).2.2.2.2.2.1
  rw [h2, List.map_map]
  have h3 : (b64encode data).map (byteSextet ∘ sextetByte) = (b64encode data).map id := by
    refine List.map_congr_left ?_
    intro s hs
    exact byteSextet_sextetByte s (b64encode_lt data h s hs)
  rw [h3, List.map_id]
  exact b64decode_b64encode data h

/-- Decoding a padded standard base64 text, through the url-safe decoder,
returns the original bytes (the decoder ignores padding and the url
substitutions fix every standard-alphabet byte except plus and slash, which
do not occur in url form here because substitution is applied first). -/
theorem decodeBase64Url_toBase64 (l : Bytes) (h : ∀ x ∈ l, x < 256) :
    decodeBase64Url (toBase64 l) = l := by
  unfold decodeBase64Url toBase64
  rw [List.map_append, List.map_map]
  have h1 : (b64encode l).map (urlToStd ∘ sextetByte) = (b64encode l).map sextetByte := by
    refine List.map_congr_left ?_
    intro s _
    have h45 := (sextetByte_props s).2.2.2.2.1
    have h95 := (sextetByte_props s).2.2.2.2.2.2.1
    unfold urlToStd
    simp [Function.comp, h45, h95]
  have h2 : (b64pad l).map urlToStd = b64pad l := by
    refine List.map_congr_left ?_ |>.trans (List.map_id _)
    intro b hb
    have := b64pad_mem l b hb
    subst this
    rfl
  rw [h1, h2, List.filter_append]
  have h3 : ((b64encode l).map sextetByte).filter (fun b => b ≠ 61) =
      (b64encode l).map sextetByte := by
    rw [List.filter_eq_self]
    intro b hb
    simp only [List.mem_map] at hb
    obtain ⟨s, _, rfl⟩ := hb
    simpa using (sextetByte_props s).2.2.2.2.2.1
  have h4 : (b64pad l).filter (fun b => b ≠ 61) = [] := by
    rw [List.filter_eq_nil_iff]
    intro b hb
    have := b64pad_mem l b hb
    simp [this]
  rw [h3, h4, List.append_nil, List.map_map]
  have h5 : (b64encode l).map (byteSextet ∘ sextetByte) = (b64encode l).map id := by
    refine List.map_congr_left ?_
    intro s hs
    exact byteSextet_sextetByte s (b64encode_lt l h s hs)
  rw [h5, List.map_id]
  exact b64decode_b64encode l h

/-- Lists with different optional heads differ. -/
theorem ne_of_head_ne {l1 l2 : Bytes} (h : l1.head? ≠ l2.head?) : l1 ≠ l2 :=
  fun e => h (by rw [e])

/-- Delimiter line unfolding. -/
theorem dashBnd_eq (b : Bytes) : dashBnd b = 45 :: 45 :: b := rfl

/-- Close-delimiter line unfolding. -/
theorem closeBnd_eq (b : Bytes) : closeBnd b = 45 :: 45 :: (b ++ [45, 45]) := rfl

/-- First byte of the mixed boundary token (the letter b). -/
theorem mixedBoundary_head (n : Nat) : (mixedBoundary n).head? = some 98 := rfl

/-- First byte of the alternative boundary token (the letter a). -/
theorem altBoundaryTok_head (n : Nat) : (altBoundaryTok n).head? = some 97 := rfl

/-- First byte survives appending on the right of the mixed token. -/
theorem mixedBoundary_append_head (n : Nat) (t : Bytes) :
    (mixedBoundary n ++ t).head? = some 98 := rfl

/-- First byte survives appending on the right of the alternative token. -/
theorem altBoundaryTok_append_head (n : Nat) (t : Bytes) :
    (altBoundaryTok n ++ t).head? = some 97 := rfl

/-- Two dash-dash lines with different continuation heads differ. -/
theorem cons45_ne {x y : Bytes} (h : x.head? ≠ y.head?) :
    (45 :: 45 :: x : Bytes) ≠ 45 :: 45 :: y := by
  intro e
  injection e with _ e1
  injection e1 with _ e2
  exact h (by rw [e2])

/-- The underscore byte occurs in every mixed boundary token. -/
theorem mem_95_mixedBoundary (n : Nat) : 95 ∈ mixedBoundary n := by
  unfold mixedBoundary
  exact List.mem_append.mpr (Or.inl (by decide))

/-- The underscore byte occurs in every alternative boundary token. -/
theorem mem_95_altBoundaryTok (n : Nat) : 95 ∈ altBoundaryTok n := by
  unfold altBoundaryTok
  exact List.mem_append.mpr (Or.inl (by decide))

/-- Every byte of a base64 text is in the printable alphabet-plus-padding
range, hence none of CR, LF, dash, underscore, double quote. -/
theorem toBase64_mem (l : Bytes) :
    ∀ x ∈ toBase64 l, 43 ≤ x ∧ x ≤ 122 ∧ x ≠ 13 ∧ x ≠ 10 ∧ x ≠ 45 ∧ x ≠ 95 ∧ x ≠ 34 := by
  intro x hx
  unfold toBase64 at hx
  rcases List.mem_append.mp hx with h | h
  · obtain ⟨s, _, rfl⟩ := List.mem_map.mp h
    have hp := sextetByte_props s
    omega
  · have := b64pad_mem l x h
    subst this
    omega

/-- A prefix is elementwise contained. -/
theorem isPrefixOf_subset : ∀ (p l : Bytes), p.isPrefixOf l = true → ∀ x ∈ p, x ∈ l := by
  intro p
  induction p with
  | nil => intro l _ x hx; simp at hx
  | cons a t ih =>
      intro l hp x hx
      cases l with
      | nil => simp [List.isPrefixOf] at hp
      | cons b s =>
          simp only [List.isPrefixOf, Bool.and_eq_true, beq_iff_eq] at hp
          rcases List.mem_cons.mp hx with rfl | hxt
          · exact List.mem_cons.mpr (Or.inl hp.1)
          · exact List.mem_cons.mpr (Or.inr (ih s hp.2 x hxt))

/-- A substring is elementwise contained. -/
theorem substrOf_subset (p : Bytes) : ∀ (l : Bytes), substrOf p l = true → ∀ x ∈ p, x ∈ l := by
  intro l
  induction l with
  | nil =>
      intro h x hx
      unfold substrOf at h
      rw [List.isEmpty_iff] at h
      subst h
      simp at hx
  | cons a rest ih =>
      intro h x hx
      unfold substrOf at h
      simp only [Bool.or_eq_true] at h
      rcases h with h1 | h2
      · exact isPrefixOf_subset p (a :: rest) h1 x hx
      · exact List.mem_cons.mpr (Or.inr (ih h2 x hx))

/-- A byte string missing some byte of `p` cannot contain `p` as a
substring. -/
theorem substrOf_eq_false (p l : Bytes) (x : Nat) (hx : x ∈ p) (hl : x ∉ l) :
    substrOf p l = false := by
  cases h : substrOf p l
  · rfl
  · exact absurd (substrOf_subset p l h x hx) hl

/-- C2 counterexample: at timestamp 0 the generated mixed boundary token is
the byte string `boundary_0`; a caller-supplied attachment whose content is
that very byte string puts the boundary inside a content line of the
encoded message, so the boundary does collide with content. -/
theorem boundary_collision_counterexample :
    substrOf (mixedBoundary 0) collisionAttachment.content = true ∧
    collisionAttachment.content ∈ buildRawLines collisionMessage 0 0 ∧
    collisionAttachment ∈ (collisionMessage.attachments.getD []) := by
  refine ⟨by decide, by decide, by decide⟩

/-- C2 amended: the two generated boundary tokens are never equal (their
fixed prefixes differ), and neither token can occur inside the base64 body
or HTML lines the encoder itself produces, because both tokens contain an
underscore and base64 text never does. Caller-supplied attachment content
is inlined verbatim and is not covered (see the counterexample). -/
theorem boundary_tokens_amended (o : EmailOptions) (now altNow : Nat) :
    mixedBoundary now ≠ altBoundaryTok altNow ∧
    substrOf (mixedBoundary now) (toBase64 o.body) = false ∧
    substrOf (altBoundaryTok altNow) (toBase64 o.body) = false ∧
    substrOf (mixedBoundary now) (toBase64 (o.htmlBody.getD [])) = false ∧
    substrOf (altBoundaryTok altNow) (toBase64 (o.htmlBody.getD [])) = false := by
  have hmem : ∀ l : Bytes, 95 ∉ toBase64 l := by
    intro l hmem
    have := toBase64_mem l 95 hmem
    omega
  refine ⟨ne_of_head_ne (by rw [mixedBoundary_head, altBoundaryTok_head]; decide),
    substrOf_eq_false _ _ 95 (mem_95_mixedBoundary now) (hmem _),
    substrOf_eq_false _ _ 95 (mem_95_altBoundaryTok altNow) (hmem _),
    substrOf_eq_false _ _ 95 (mem_95_mixedBoundary now) (hmem _),
    substrOf_eq_false _ _ 95 (mem_95_altBoundaryTok altNow) (hmem _)⟩

/-- Equation of the scanner on a cons cell. -/
theorem splitPartsGo_cons (d c l : Bytes) (acc rest : List Bytes) :
    splitPartsGo d c acc (l :: rest) =
      if l = c then [acc.reverse]
      else if l = d then acc.reverse :: splitPartsGo d c [] rest
      else splitPartsGo d c (l :: acc) rest := rfl

/-- Scanning stops at the close delimiter. -/
theorem splitPartsGo_close (d c : Bytes) (acc rest : List Bytes) :
    splitPartsGo d c acc (c :: rest) = [acc.reverse] := by
  rw [splitPartsGo_cons, if_pos rfl]

/-- Scanning emits the accumulated part at a delimiter. -/
theorem splitPartsGo_delim (d c : Bytes) (hdc : d ≠ c) (acc rest : List Bytes) :
    splitPartsGo d c acc (d :: rest) = acc.reverse :: splitPartsGo d c [] rest := by
  rw [splitPartsGo_cons, if_neg hdc, if_pos rfl]

/-- Scanning accumulates every line that is neither delimiter. -/
theorem splitPartsGo_append (d c : Bytes) (pre : List Bytes)
    (h : ∀ l ∈ pre, l ≠ d ∧ l ≠ c) :
    ∀ acc rest, splitPartsGo d c acc (pre ++ rest)
      = splitPartsGo d c (pre.reverse ++ acc) rest := by
  induction pre with
  | nil => intro acc rest; simp
  | cons p t ih =>
      intro acc rest
      have hp := h p (by simp)
      rw [List.cons_append, splitPartsGo_cons, if_neg hp.2, if_neg hp.1]
      rw [ih (fun l hl => h l (by simp [hl])) (p :: acc) rest]
      simp

/-- Equation of the delimiter search on a cons cell. -/
theorem afterFirstDelim_cons_eq (d l : Bytes) (rest : List Bytes) :
    afterFirstDelim d (l :: rest) = if l = d then rest else afterFirstDelim d rest := rfl

/-- The delimiter search skips lines that are not the delimiter. -/
theorem afterFirstDelim_append (d : Bytes) (pre : List Bytes)
    (h : ∀ l ∈ pre, l ≠ d) (rest : List Bytes) :
    afterFirstDelim d (pre ++ rest) = afterFirstDelim d rest := by
  induction pre with
  | nil => simp
  | cons p t ih =>
      rw [List.cons_append, afterFirstDelim_cons_eq, if_neg (h p (by simp))]
      exact ih (fun l hl => h l (by simp [hl]))

/-- The delimiter search stops at the delimiter. -/
theorem afterFirstDelim_cons (d : Bytes) (rest : List Bytes) :
    afterFirstDelim d (d :: rest) = rest := by
  rw [afterFirstDelim_cons_eq, if_pos rfl]

/-- A delimiter line is never its own close-delimiter line (lengths
differ by two). -/
theorem dashBnd_ne_closeBnd (b : Bytes) : dashBnd b ≠ closeBnd b := by
  intro h
  have hlen := congrArg List.length h
  rw [dashBnd_eq, closeBnd_eq] at hlen
  simp at hlen

/-- A base64 text line never starts with the dash byte, so it is neither a
delimiter nor a close-delimiter line. -/
theorem toBase64_ne_bnd (l b : Bytes) : toBase64 l ≠ dashBnd b ∧ toBase64 l ≠ closeBnd b := by
  have h45 : ∀ t : Bytes, toBase64 l ≠ 45 :: t := by
    intro t he
    have h45m : 45 ∈ toBase64 l := by rw [he]; simp
    have := toBase64_mem l 45 h45m
    omega
  exact ⟨by rw [dashBnd_eq]; exact h45 _, by rw [closeBnd_eq]; exact h45 _⟩

/-- The empty line is neither delimiter line. -/
theorem nil_ne_bnd (b : Bytes) : ([] : Bytes) ≠ dashBnd b ∧ ([] : Bytes) ≠ closeBnd b := by
  constructor
  · rw [dashBnd_eq]; simp
  · rw [closeBnd_eq]; simp

/-- A line starting with a byte other than dash is neither delimiter
line. -/
theorem head_ne_bnd {l : Bytes} {a : Nat} (hl : l.head? = some a) (ha : a ≠ 45) (b : Bytes) :
    l ≠ dashBnd b ∧ l ≠ closeBnd b := by
  constructor
  · refine ne_of_head_ne ?_
    rw [hl, dashBnd_eq]
    simp [ha]
  · refine ne_of_head_ne ?_
    rw [hl, closeBnd_eq]
    simp [ha]

/-- A line of `optHeaderLine` is the tag followed by the present field. -/
theorem mem_optHeaderLine {tag : Bytes} {v : Option Bytes} {l : Bytes}
    (h : l ∈ optHeaderLine tag v) : ∃ f, v = some f ∧ l = tag ++ f := by
  rcases v with _ | f
  · simp [optHeaderLine] at h
  · simp only [optHeaderLine] at h
    split at h
    · simp at h
    · simp at h
      exact ⟨f, rfl, h⟩

/-- A line of `listHeaderLine` is the tag followed by the joined list. -/
theorem mem_listHeaderLine {tag : Bytes} {v : Option (List Bytes)} {l : Bytes}
    (h : l ∈ listHeaderLine tag v) :
    ∃ cs, v = some cs ∧ l = tag ++ joinSep (ascii ", ") cs := by
  rcases v with _ | cs
  · simp [listHeaderLine] at h
  · simp only [listHeaderLine] at h
    split at h
    · simp at h
    · simp at h
      exact ⟨cs, rfl, h⟩

/-- Every header line starts with an upper-case ASCII letter, in particular
not with a dash. -/
theorem headerLines_head (o : EmailOptions) :
    ∀ l ∈ headerLines o, ∃ a, l.head? = some a ∧ a ≠ 45 := by
  intro l hl
  unfold headerLines at hl
  simp only [List.mem_append, List.mem_singleton] at hl
  rcases hl with (((((((h | h) | h) | h) | h) | h) | h) | h)
  · exact ⟨84, by rw [h]; rfl, by decide⟩
  · obtain ⟨f, _, rfl⟩ := mem_optHeaderLine h
    exact ⟨70, rfl, by decide⟩
  · obtain ⟨cs, _, rfl⟩ := mem_listHeaderLine h
    exact ⟨67, rfl, by decide⟩
  · obtain ⟨cs, _, rfl⟩ := mem_listHeaderLine h
    exact ⟨66, rfl, by decide⟩
  · exact ⟨83, by rw [h]; rfl, by decide⟩
  · obtain ⟨f, _, rfl⟩ := mem_optHeaderLine h
    exact ⟨73, rfl, by decide⟩
  · obtain ⟨f, _, rfl⟩ := mem_optHeaderLine h
    exact ⟨82, rfl, by decide⟩
  · exact ⟨77, by rw [h]; rfl, by decide⟩

/-- Header lines are never boundary delimiter lines, for any boundary. -/
theorem headerLines_ne_bnd (o : EmailOptions) (b : Bytes) :
    ∀ l ∈ headerLines o, l ≠ dashBnd b ∧ l ≠ closeBnd b := by
  intro l hl
  obtain ⟨a, hhead, ha⟩ := headerLines_head o l hl
  exact head_ne_bnd hhead ha b

/-- Attachment part lines are never mixed-boundary delimiter lines, as long
as the caller-supplied content line is not one. -/
theorem attachmentPartLines_ne_bnd (a : Attachment) (b : Bytes)
    (hc : a.content ≠ dashBnd b ∧ a.content ≠ closeBnd b) :
    ∀ l ∈ attachmentPartLines a, l ≠ dashBnd b ∧ l ≠ closeBnd b := by
  intro l hl
  unfold attachmentPartLines at hl
  simp only [List.mem_cons, List.not_mem_nil, or_false] at hl
  rcases hl with rfl | rfl | rfl | rfl | rfl
  · refine head_ne_bnd ?_ (by decide : (67 : Nat) ≠ 45) b
    rfl
  · refine head_ne_bnd ?_ (by decide : (67 : Nat) ≠ 45) b
    rfl
  · refine head_ne_bnd ?_ (by decide : (67 : Nat) ≠ 45) b
    rfl
  · exact nil_ne_bnd b
  · exact hc

/-- Scanning the attachment loop lines: each delimiter starts a part made
of exactly that attachment part lines, and the trailing close delimiter
ends the scan. -/
theorem splitPartsGo_attachments (bnd : Bytes) (atts : List Attachment)
    (hc : ∀ a ∈ atts, a.content ≠ dashBnd bnd ∧ a.content ≠ closeBnd bnd) :
    ∀ acc, splitPartsGo (dashBnd bnd) (closeBnd bnd) acc
        (atts.flatMap (attachmentLines bnd) ++ [closeBnd bnd])
      = acc.reverse :: atts.map attachmentPartLines := by
  induction atts with
  | nil =>
      intro acc
      simp [splitPartsGo_close]
  | cons a t ih =>
      intro acc
      have hca := hc a (by simp)
      simp only [List.flatMap_cons, attachmentLines, List.map_cons, List.cons_append,
        List.append_assoc]
      rw [splitPartsGo_delim _ _ (dashBnd_ne_closeBnd bnd)]
      congr 1
      rw [splitPartsGo_append _ _ (attachmentPartLines a)
        (attachmentPartLines_ne_bnd a bnd hca) [] _]
      rw [ih (fun x hx => hc x (by simp [hx])) ((attachmentPartLines a).reverse ++ [])]
      simp

/-- C4. With a non-empty attachments list the encoder emits a top-level
multipart/mixed content type, and splitting the emitted lines at the mixed
boundary yields exactly one body-bearing first part followed by one part
per attachment in input order, each carrying the attachment filename in
the Content-Type name and Content-Disposition filename and its mimeType in
the Content-Type line (the shape of `attachmentPartLines`). The side
conditions only rule out caller content lines that spell a boundary
delimiter, which would break the multipart framing itself. -/
theorem attachments_structure (o : EmailOptions) (now altNow : Nat)
    (atts : List Attachment) (ha : o.attachments = some atts) (hne : atts ≠ [])
    (hc : ∀ a ∈ atts, a.content ≠ dashBnd (mixedBoundary now)
        ∧ a.content ≠ closeBnd (mixedBoundary now)) :
    (ascii "Content-Type: multipart/mixed; boundary=\"" ++ mixedBoundary now ++ [34])
        ∈ buildRawLines o now altNow ∧
    collectParts (dashBnd (mixedBoundary now)) (closeBnd (mixedBoundary now))
        (buildRawLines o now altNow)
      = (match o.htmlBody with
          | some hb => altGroupLines (altBoundaryTok altNow) o.body hb
          | none => plainPartLines o.body) :: atts.map attachmentPartLines ∧
    (collectParts (dashBnd (mixedBoundary now)) (closeBnd (mixedBoundary now))
        (buildRawLines o now altNow)).length = atts.length + 1 := by
  have hpres : attachmentsPresent o = true := by
    unfold attachmentsPresent
    rw [ha]
    simpa using hne
  have hlines : buildRawLines o now altNow
      = headerLines o
        ++ ([ascii "Content-Type: multipart/mixed; boundary=\"" ++ mixedBoundary now ++ [34], []]
          ++ [dashBnd (mixedBoundary now)]
          ++ (match o.htmlBody with
              | some hb => altGroupLines (altBoundaryTok altNow) o.body hb
              | none => plainPartLines o.body)
          ++ atts.flatMap (attachmentLines (mixedBoundary now))
          ++ [closeBnd (mixedBoundary now)]) := by
    unfold buildRawLines bodySectionLines
    rw [hpres, ha]
    simp
  have hbody_ne : ∀ l ∈ (match o.htmlBody with
      | some hb => altGroupLines (altBoundaryTok altNow) o.body hb
      | none => plainPartLines o.body),
      l ≠ dashBnd (mixedBoundary now) ∧ l ≠ closeBnd (mixedBoundary now) := by
    cases hh : o.htmlBody with
    | none =>
        intro l hl
        unfold plainPartLines at hl
        simp only [List.mem_cons, List.not_mem_nil, or_false] at hl
        rcases hl with rfl | rfl | rfl | rfl
        · refine head_ne_bnd ?_ (by decide : (67 : Nat) ≠ 45) _
          rfl
        · refine head_ne_bnd ?_ (by decide : (67 : Nat) ≠ 45) _
          rfl
        · exact nil_ne_bnd _
        · exact toBase64_ne_bnd _ _
    | some hb =>
        intro l hl
        unfold altGroupLines at hl
        simp only [List.mem_cons, List.not_mem_nil, or_false] at hl
        have hdashalt : dashBnd (altBoundaryTok altNow) ≠ dashBnd (mixedBoundary now)
            ∧ dashBnd (altBoundaryTok altNow) ≠ closeBnd (mixedBoundary now) := by
          constructor
          · rw [dashBnd_eq, dashBnd_eq]
            refine cons45_ne ?_
            rw [altBoundaryTok_head, mixedBoundary_head]
            decide
          · rw [dashBnd_eq, closeBnd_eq]
            refine cons45_ne ?_
            rw [altBoundaryTok_head, mixedBoundary_append_head]
            decide
        have hclosealt : closeBnd (altBoundaryTok altNow) ≠ dashBnd (mixedBoundary now)
            ∧ closeBnd (altBoundaryTok altNow) ≠ closeBnd (mixedBoundary now) := by
          constructor
          · rw [closeBnd_eq, dashBnd_eq]
            refine cons45_ne ?_
            rw [altBoundaryTok_append_head, mixedBoundary_head]
            decide
          · rw [closeBnd_eq, closeBnd_eq]
            refine cons45_ne ?_
            rw [altBoundaryTok_append_head, mixedBoundary_append_head]
            decide
        rcases hl with rfl | rfl | rfl | rfl | rfl | rfl | rfl | rfl | rfl | rfl | rfl | rfl | rfl
        · refine head_ne_bnd ?_ (by decide : (67 : Nat) ≠ 45) _
          rfl
        · exact nil_ne_bnd _
        · exact hdashalt
        · refine head_ne_bnd ?_ (by decide : (67 : Nat) ≠ 45) _
          rfl
        · refine head_ne_bnd ?_ (by decide : (67 : Nat) ≠ 45) _
          rfl
        · exact nil_ne_bnd _
        · exact toBase64_ne_bnd _ _
        · exact hdashalt
        · refine head_ne_bnd ?_ (by decide : (67 : Nat) ≠ 45) _
          rfl
        · refine head_ne_bnd ?_ (by decide : (67 : Nat) ≠ 45) _
          rfl
        · exact nil_ne_bnd _
        · exact toBase64_ne_bnd _ _
        · exact hclosealt
  have hparts : collectParts (dashBnd (mixedBoundary now)) (closeBnd (mixedBoundary now))
      (buildRawLines o now altNow)
      = (match o.htmlBody with
          | some hb => altGroupLines (altBoundaryTok altNow) o.body hb
          | none => plainPartLines o.body) :: atts.map attachmentPartLines := by
    rw [hlines]
    unfold collectParts
    rw [show headerLines o
        ++ ([ascii "Content-Type: multipart/mixed; boundary=\"" ++ mixedBoundary now ++ [34], []]
          ++ [dashBnd (mixedBoundary now)]
          ++ (match o.htmlBody with
              | some hb => altGroupLines (altBoundaryTok altNow) o.body hb
              | none => plainPartLines o.body)
          ++ atts.flatMap (attachmentLines (mixedBoundary now))
          ++ [closeBnd (mixedBoundary now)])
      = (headerLines o
          ++ [ascii "Content-Type: multipart/mixed; boundary=\"" ++ mixedBoundary now ++ [34], []])
        ++ (dashBnd (mixedBoundary now)
          :: ((match o.htmlBody with
              | some hb => altGroupLines (altBoundaryTok altNow) o.body hb
              | none => plainPartLines o.body)
            ++ (atts.flatMap (attachmentLines (mixedBoundary now))
              ++ [closeBnd (mixedBoundary now)]))) from by simp]
    rw [afterFirstDelim_append _ _ ?hpre, afterFirstDelim_cons]
    case hpre =>
      intro l hl
      rcases List.mem_append.mp hl with h | h
      · exact ((headerLines_ne_bnd o _ l h).1)
      · simp only [List.mem_cons, List.not_mem_nil, or_false] at h
        rcases h with rfl | rfl
        · refine (head_ne_bnd ?_ (by decide : (67 : Nat) ≠ 45) _).1
          rfl
        · exact (nil_ne_bnd _).1
    rw [splitPartsGo_append _ _ _ hbody_ne [] _]
    rw [splitPartsGo_attachments (mixedBoundary now) atts hc]
    simp
  refine ⟨?_, hparts, ?_⟩
  · rw [hlines]
    simp
  · rw [hparts]
    simp

/-- Witness for C4 on a concrete one-attachment message at timestamp 0. -/
theorem attachments_structure_witness :
    (collectParts (dashBnd (mixedBoundary 0)) (closeBnd (mixedBoundary 0))
        (buildRawLines
          { toAddr := ascii "a@b.com", subject := ascii "Hi", body := ascii "hi there",
            attachments := some [⟨ascii "r.pdf", ascii "application/pdf", ascii "QUJD"⟩] }
          0 0)).length = 2 :=
  (attachments_structure
    { toAddr := ascii "a@b.com", subject := ascii "Hi", body := ascii "hi there",
      attachments := some [⟨ascii "r.pdf", ascii "application/pdf", ascii "QUJD"⟩] }
    0 0 [⟨ascii "r.pdf", ascii "application/pdf", ascii "QUJD"⟩]
    rfl (by decide) (by decide)).2.2

/-- Scanning two clean parts separated by a delimiter and finished by the
close delimiter yields exactly those two parts, whatever follows the close
delimiter. -/
theorem splitPartsGo_twoParts (d c : Bytes) (hdc : d ≠ c) (p1 p2 tail : List Bytes)
    (h1 : ∀ l ∈ p1, l ≠ d ∧ l ≠ c) (h2 : ∀ l ∈ p2, l ≠ d ∧ l ≠ c) :
    splitPartsGo d c [] (p1 ++ d :: (p2 ++ c :: tail)) = [p1, p2] := by
  rw [splitPartsGo_append d c p1 h1 [] _, splitPartsGo_delim d c hdc,
    splitPartsGo_append d c p2 h2 [] _, splitPartsGo_close]
  simp

/-- C5. Whenever both a plain and an HTML body are supplied, splitting the
emitted lines at the boundary of the multipart/alternative group yields
exactly two parts with the text/plain part strictly first and the
text/html part second — at top level when there are no attachments (the
group then uses the mixed boundary token), and nested inside
multipart/mixed when there are (the group then uses the alternative
boundary token). -/
theorem alternative_plain_before_html (o : EmailOptions) (now altNow : Nat) (hb : Bytes)
    (hh : o.htmlBody = some hb) :
    (attachmentsPresent o = false →
      collectParts (dashBnd (mixedBoundary now)) (closeBnd (mixedBoundary now))
          (buildRawLines o now altNow)
        = [[ascii "Content-Type: text/plain; charset=\"UTF-8\"",
            ascii "Content-Transfer-Encoding: base64", [], toBase64 o.body],
           [ascii "Content-Type: text/html; charset=\"UTF-8\"",
            ascii "Content-Transfer-Encoding: base64", [], toBase64 hb]]) ∧
    (attachmentsPresent o = true →
      collectParts (dashBnd (altBoundaryTok altNow)) (closeBnd (altBoundaryTok altNow))
          (buildRawLines o now altNow)
        = [[ascii "Content-Type: text/plain; charset=\"UTF-8\"",
            ascii "Content-Transfer-Encoding: base64", [], toBase64 o.body],
           [ascii "Content-Type: text/html; charset=\"UTF-8\"",
            ascii "Content-Transfer-Encoding: base64", [], toBase64 hb]]) := by
  have hplain : ∀ b : Bytes,
      ∀ l ∈ [ascii "Content-Type: text/plain; charset=\"UTF-8\"",
        ascii "Content-Transfer-Encoding: base64", [], toBase64 o.body],
      l ≠ dashBnd b ∧ l ≠ closeBnd b := by
    intro b l hl
    simp only [List.mem_cons, List.not_mem_nil, or_false] at hl
    rcases hl with rfl | rfl | rfl | rfl
    · refine head_ne_bnd ?_ (by decide : (67 : Nat) ≠ 45) b
      rfl
    · refine head_ne_bnd ?_ (by decide : (67 : Nat) ≠ 45) b
      rfl
    · exact nil_ne_bnd b
    · exact toBase64_ne_bnd _ b
  have hhtml : ∀ b : Bytes,
      ∀ l ∈ [ascii "Content-Type: text/html; charset=\"UTF-8\"",
        ascii "Content-Transfer-Encoding: base64", [], toBase64 hb],
      l ≠ dashBnd b ∧ l ≠ closeBnd b := by
    intro b l hl
    simp only [List.mem_cons, List.not_mem_nil, or_false] at hl
    rcases hl with rfl | rfl | rfl | rfl
    · refine head_ne_bnd ?_ (by decide : (67 : Nat) ≠ 45) b
      rfl
    · refine head_ne_bnd ?_ (by decide : (67 : Nat) ≠ 45) b
      rfl
    · exact nil_ne_bnd b
    · exact toBase64_ne_bnd _ b
  constructor
  · intro hpres
    have hre : buildRawLines o now altNow
        = (headerLines o
            ++ [ascii "Content-Type: multipart/alternative; boundary=\""
                  ++ mixedBoundary now ++ [34], []])
          ++ dashBnd (mixedBoundary now)
            :: ([ascii "Content-Type: text/plain; charset=\"UTF-8\"",
                 ascii "Content-Transfer-Encoding: base64", [], toBase64 o.body]
              ++ dashBnd (mixedBoundary now)
                :: ([ascii "Content-Type: text/html; charset=\"UTF-8\"",
                     ascii "Content-Transfer-Encoding: base64", [], toBase64 hb]
                  ++ closeBnd (mixedBoundary now) :: [])) := by
      simp [buildRawLines, bodySectionLines, hpres, hh, altGroupLines]
    rw [hre]
    unfold collectParts
    rw [afterFirstDelim_append _ _ ?hpreA, afterFirstDelim_cons]
    case hpreA =>
      intro l hl
      rcases List.mem_append.mp hl with h | h
      · exact (headerLines_ne_bnd o _ l h).1
      · simp only [List.mem_cons, List.not_mem_nil, or_false] at h
        rcases h with rfl | rfl
        · refine (head_ne_bnd ?_ (by decide : (67 : Nat) ≠ 45) _).1
          rfl
        · exact (nil_ne_bnd _).1
    exact splitPartsGo_twoParts _ _ (dashBnd_ne_closeBnd _) _ _ _
      (hplain (mixedBoundary now)) (hhtml (mixedBoundary now))
  · intro hpres
    have hre : buildRawLines o now altNow
        = (headerLines o
            ++ [ascii "Content-Type: multipart/mixed; boundary=\""
                  ++ mixedBoundary now ++ [34], [],
                dashBnd (mixedBoundary now),
                ascii "Content-Type: multipart/alternative; boundary=\""
                  ++ altBoundaryTok altNow ++ [34], []])
          ++ dashBnd (altBoundaryTok altNow)
            :: ([ascii "Content-Type: text/plain; charset=\"UTF-8\"",
                 ascii "Content-Transfer-Encoding: base64", [], toBase64 o.body]
              ++ dashBnd (altBoundaryTok altNow)
                :: ([ascii "Content-Type: text/html; charset=\"UTF-8\"",
                     ascii "Content-Transfer-Encoding: base64", [], toBase64 hb]
                  ++ closeBnd (altBoundaryTok altNow)
                    :: ((o.attachments.getD []).flatMap
                          (attachmentLines (mixedBoundary now))
                        ++ [closeBnd (mixedBoundary now)]))) := by
      simp [buildRawLines, bodySectionLines, hpres, hh, altGroupLines]
    rw [hre]
    unfold collectParts
    rw [afterFirstDelim_append _ _ ?hpreB, afterFirstDelim_cons]
    case hpreB =>
      intro l hl
      rcases List.mem_append.mp hl with h | h
      · exact (headerLines_ne_bnd o _ l h).1
      · simp only [List.mem_cons, List.not_mem_nil, or_false] at h
        rcases h with rfl | rfl | rfl | rfl | rfl
        · refine (head_ne_bnd ?_ (by decide : (67 : Nat) ≠ 45) _).1
          rfl
        · exact (nil_ne_bnd _).1
        · rw [dashBnd_eq, dashBnd_eq]
          refine cons45_ne ?_
          rw [mixedBoundary_head, altBoundaryTok_head]
          decide
        · refine (head_ne_bnd ?_ (by decide : (67 : Nat) ≠ 45) _).1
          rfl
        · exact (nil_ne_bnd _).1
    exact splitPartsGo_twoParts _ _ (dashBnd_ne_closeBnd _) _ _ _
      (hplain (altBoundaryTok altNow)) (hhtml (altBoundaryTok altNow))

/-- Witness for C5 on a concrete message with both bodies and no
attachments, at timestamp 0. -/
theorem alternative_plain_before_html_witness :
    collectParts (dashBnd (mixedBoundary 0)) (closeBnd (mixedBoundary 0))
        (buildRawLines
          { toAddr := ascii "a@b.com", subject := ascii "Hi", body := ascii "p",
            htmlBody := some (ascii "h") } 0 0)
      = [[ascii "Content-Type: text/plain; charset=\"UTF-8\"",
          ascii "Content-Transfer-Encoding: base64", [], toBase64 (ascii "p")],
         [ascii "Content-Type: text/html; charset=\"UTF-8\"",
          ascii "Content-Transfer-Encoding: base64", [], toBase64 (ascii "h")]] :=
  (alternative_plain_before_html
    { toAddr := ascii "a@b.com", subject := ascii "Hi", body := ascii "p",
      htmlBody := some (ascii "h") } 0 0 (ascii "h") rfl).1 rfl

/-- Equation of the body extractor on a cons cell. -/
theorem extractBody_cons (x : Nat) (rest : Bytes) :
    extractBody (x :: rest) =
      if x = 13 ∧ rest.take 3 = [10, 13, 10] then rest.drop 3
      else extractBody rest := rfl

/-- The extractor skips a CR-free chunk and takes everything after the
following CRLF CRLF. -/
theorem extractBody_skip (hchunk rest : Bytes) (h : ∀ x ∈ hchunk, x ≠ 13) :
    extractBody (hchunk ++ 13 :: 10 :: 13 :: 10 :: rest) = rest := by
  induction hchunk with
  | nil => simp [extractBody_cons]
  | cons a t ih =>
      rw [List.cons_append, extractBody_cons, if_neg (by simp [h a (by simp)])]
      exact ih (fun x hx => h x (by simp [hx]))

/-- The extractor skips a CR-free chunk followed by one CRLF that is not
part of a blank line (the next byte differs from CR). -/
theorem extractBody_skip_to (hchunk : Bytes) (z : Nat) (t : Bytes)
    (h : ∀ x ∈ hchunk, x ≠ 13) (hz : z ≠ 13) :
    extractBody (hchunk ++ 13 :: 10 :: z :: t) = extractBody (z :: t) := by
  induction hchunk with
  | nil =>
      rw [List.nil_append, extractBody_cons, if_neg (by simp [hz]), extractBody_cons,
        if_neg (by simp)]
  | cons a t2 ih =>
      rw [List.cons_append, extractBody_cons, if_neg (by simp [h a (by simp)])]
      exact ih (fun x hx => h x (by simp [hx]))

/-- Join equation for a list with at least two lines. -/
theorem joinSep_cons_ne_nil (sep l : Bytes) (ls : List Bytes) (h : ls ≠ []) :
    joinSep sep (l :: ls) = l ++ sep ++ joinSep sep ls := by
  cases ls with
  | nil => exact absurd rfl h
  | cons x t => rfl

/-- Joining distributes over concatenation of non-empty line lists. -/
theorem joinSep_append (sep : Bytes) (xs ys : List Bytes) (hx : xs ≠ []) (hy : ys ≠ []) :
    joinSep sep (xs ++ ys) = joinSep sep xs ++ sep ++ joinSep sep ys := by
  induction xs with
  | nil => exact absurd rfl hx
  | cons x t ih =>
      cases t with
      | nil =>
          rw [List.cons_append, List.nil_append, joinSep_cons_ne_nil sep x ys hy]
          rfl
      | cons x2 t2 =>
          rw [List.cons_append, joinSep_cons_ne_nil sep x ((x2 :: t2) ++ ys) (by simp),
            ih (by simp), joinSep_cons_ne_nil sep x (x2 :: t2) (by simp)]
          simp [List.append_assoc]

/-- Every byte of a join comes from the separator or from one of the
lines. -/
theorem mem_joinSep {sep : Bytes} {ls : List Bytes} {x : Nat}
    (h : x ∈ joinSep sep ls) : x ∈ sep ∨ ∃ l ∈ ls, x ∈ l := by
  induction ls with
  | nil => simp [joinSep] at h
  | cons l t ih =>
      cases t with
      | nil => exact Or.inr ⟨l, by simp, h⟩
      | cons l2 t2 =>
          rw [joinSep_cons_ne_nil _ _ _ (by simp)] at h
          rcases List.mem_append.mp h with h1 | h1
          · rcases List.mem_append.mp h1 with h2 | h2
            · exact Or.inr ⟨l, by simp, h2⟩
            · exact Or.inl h2
          · rcases ih h1 with h2 | ⟨l3, hl3, hx3⟩
            · exact Or.inl h2
            · exact Or.inr ⟨l3, by simp [hl3], hx3⟩

/-- Scanning the join of a block of non-empty CR-and-LF-free header lines,
the extractor returns exactly what follows the blank line. -/
theorem extractBody_join (hs : List Bytes) (rest : Bytes)
    (h : ∀ l ∈ hs, l ≠ [] ∧ ∀ x ∈ l, x ≠ 13 ∧ x ≠ 10) :
    extractBody (joinSep crlf hs ++ 13 :: 10 :: 13 :: 10 :: rest) = rest := by
  induction hs with
  | nil => simpa using extractBody_skip [] rest (by simp)
  | cons hd tl ih =>
      have hhd := h hd (List.mem_cons_self hd tl)
      cases tl with
      | nil => exact extractBody_skip hd rest (fun x hx => (hhd.2 x hx).1)
      | cons hd2 tl2 =>
          have hhd2 := h hd2 (by simp)
          obtain ⟨z, t2, hz⟩ : ∃ z t2, hd2 = z :: t2 := by
            cases hd2 with
            | nil => exact absurd rfl hhd2.1
            | cons z t2 => exact ⟨z, t2, rfl⟩
          have hzne : z ≠ 13 := (hhd2.2 z (by rw [hz]; simp)).1
          have hjoin : ∃ jt, joinSep crlf (hd2 :: tl2) = z :: jt := by
            cases tl2 with
            | nil => exact ⟨t2, by rw [hz]; rfl⟩
            | cons a b =>
                refine ⟨t2 ++ crlf ++ joinSep crlf (a :: b), ?_⟩
                rw [joinSep_cons_ne_nil _ _ _ (by simp), hz]
                simp [List.append_assoc]
          obtain ⟨jt, hj⟩ := hjoin
          rw [joinSep_cons_ne_nil _ _ _ (by simp)]
          have heq : (hd ++ crlf ++ joinSep crlf (hd2 :: tl2)) ++ 13 :: 10 :: 13 :: 10 :: rest
              = hd ++ 13 :: 10 :: z :: (jt ++ 13 :: 10 :: 13 :: 10 :: rest) := by
            rw [hj]
            simp [crlf]
          rw [heq, extractBody_skip_to hd z _ (fun x hx => (hhd.2 x hx).1) hzne]
          have hback : z :: (jt ++ 13 :: 10 :: 13 :: 10 :: rest)
              = joinSep crlf (hd2 :: tl2) ++ 13 :: 10 :: 13 :: 10 :: rest := by
            rw [hj]
            rfl
          rw [hback]
          exact ih (fun l hl => h l (by simp [hl]))

/-- Header lines are non-empty and consist of genuine bytes other than CR
and LF, whenever the caller-controlled fields do. -/
theorem headerLines_safe (o : EmailOptions) (hok : OptionsFieldOk o) :
    ∀ l ∈ headerLines o, l ≠ [] ∧ ∀ x ∈ l, x < 256 ∧ x ≠ 13 ∧ x ≠ 10 := by
  obtain ⟨hto, hfrom, hcc, hbcc, hirt, href, _⟩ := hok
  intro l hl
  unfold headerLines at hl
  simp only [List.mem_append, List.mem_singleton] at hl
  have htag : ∀ (tag pay : Bytes), tag ≠ [] → (∀ x ∈ tag, x < 256 ∧ x ≠ 13 ∧ x ≠ 10) →
      (∀ x ∈ pay, x < 256 ∧ x ≠ 13 ∧ x ≠ 10) →
      tag ++ pay ≠ [] ∧ ∀ x ∈ tag ++ pay, x < 256 ∧ x ≠ 13 ∧ x ≠ 10 := by
    intro tag pay htne htb hpb
    constructor
    · intro he
      rw [List.append_eq_nil] at he
      exact htne he.1
    · intro x hx
      rcases List.mem_append.mp hx with hx | hx
      · exact htb x hx
      · exact hpb x hx
  rcases hl with (((((((h | h) | h) | h) | h) | h) | h) | h)
  · rw [h]
    exact htag _ _ (by decide) (by decide) hto
  · obtain ⟨f, hf, rfl⟩ := mem_optHeaderLine h
    exact htag _ _ (by decide) (by decide) (hfrom f hf)
  · obtain ⟨cs, hcs, rfl⟩ := mem_listHeaderLine h
    refine htag _ _ (by decide) (by decide) ?_
    intro x hx
    rcases mem_joinSep hx with hx | ⟨c, hcmem, hxc⟩
    · have : ∀ y ∈ ascii ", ", y < 256 ∧ y ≠ 13 ∧ y ≠ 10 := by decide
      exact this x hx
    · exact hcc cs hcs c hcmem x hxc
  · obtain ⟨cs, hcs, rfl⟩ := mem_listHeaderLine h
    refine htag _ _ (by decide) (by decide) ?_
    intro x hx
    rcases mem_joinSep hx with hx | ⟨c, hcmem, hxc⟩
    · have : ∀ y ∈ ascii ", ", y < 256 ∧ y ≠ 13 ∧ y ≠ 10 := by decide
      exact this x hx
    · exact hbcc cs hcs c hcmem x hxc
  · rw [h, List.append_assoc]
    refine htag _ _ (by decide) (by decide) ?_
    intro x hx
    rcases List.mem_append.mp hx with hx | hx
    · have := toBase64_mem o.subject x hx
      omega
    · have : ∀ y ∈ ascii "?=", y < 256 ∧ y ≠ 13 ∧ y ≠ 10 := by decide
      exact this x hx
  · obtain ⟨f, hf, rfl⟩ := mem_optHeaderLine h
    exact htag _ _ (by decide) (by decide) (hirt f hf)
  · obtain ⟨f, hf, rfl⟩ := mem_optHeaderLine h
    exact htag _ _ (by decide) (by decide) (href f hf)
  · rw [h]
    exact ⟨by decide, by decide⟩

/-- C3. Round trip for a plain-text-only message: url-safe decoding the
encoder output gives the raw CRLF-joined message; extracting the top-level
payload body (everything after the first blank line, the decoder rule for a
message with no sub-parts) gives the base64 body line; decoding it with the
source decoder returns the original body byte for byte. The hypotheses say
the caller fields are genuine header-safe strings. -/
theorem plain_roundtrip (o : EmailOptions) (now altNow : Nat) (hok : OptionsFieldOk o)
    (hh : o.htmlBody = none) (hpres : attachmentsPresent o = false) :
    decodeBase64Url (extractBody (decodeBase64Url (buildRawEmail o now altNow)))
      = o.body := by
  have hlines : buildRawLines o now altNow = headerLines o ++ plainPartLines o.body := by
    simp [buildRawLines, bodySectionLines, hpres, hh]
  have hHB : ∀ l ∈ (headerLines o
      ++ [ascii "Content-Type: text/plain; charset=\"UTF-8\"",
          ascii "Content-Transfer-Encoding: base64"]),
      l ≠ [] ∧ ∀ x ∈ l, x ≠ 13 ∧ x ≠ 10 := by
    intro l hl
    rcases List.mem_append.mp hl with h | h
    · have := headerLines_safe o hok l h
      exact ⟨this.1, fun x hx => (this.2 x hx).2⟩
    · simp only [List.mem_cons, List.not_mem_nil, or_false] at h
      rcases h with rfl | rfl
      · exact ⟨by decide, by decide⟩
      · exact ⟨by decide, by decide⟩
  have hraw : ∀ x ∈ joinSep crlf (buildRawLines o now altNow), x < 256 := by
    rw [hlines]
    intro x hx
    rcases mem_joinSep hx with h | ⟨l, hlmem, hxl⟩
    · have : x = 13 ∨ x = 10 := by simpa [crlf] using h
      omega
    · rcases List.mem_append.mp hlmem with h | h
      · exact ((headerLines_safe o hok l h).2 x hxl).1
      · unfold plainPartLines at h
        simp only [List.mem_cons, List.not_mem_nil, or_false] at h
        rcases h with rfl | rfl | rfl | rfl
        · have : ∀ y ∈ ascii "Content-Type: text/plain; charset=\"UTF-8\"", y < 256 := by
            decide
          exact this x hxl
        · have : ∀ y ∈ ascii "Content-Transfer-Encoding: base64", y < 256 := by decide
          exact this x hxl
        · simp at hxl
        · have := toBase64_mem o.body x hxl
          omega
  unfold buildRawEmail
  rw [decodeBase64Url_encodeBase64Url _ hraw, hlines]
  have hre : headerLines o ++ plainPartLines o.body
      = (headerLines o
          ++ [ascii "Content-Type: text/plain; charset=\"UTF-8\"",
              ascii "Content-Transfer-Encoding: base64"])
        ++ [[], toBase64 o.body] := by
    simp [plainPartLines]
  rw [hre, joinSep_append crlf _ _ (by simp) (by simp)]
  have hform : joinSep crlf (headerLines o
        ++ [ascii "Content-Type: text/plain; charset=\"UTF-8\"",
            ascii "Content-Transfer-Encoding: base64"])
        ++ crlf ++ joinSep crlf [[], toBase64 o.body]
      = joinSep crlf (headerLines o
          ++ [ascii "Content-Type: text/plain; charset=\"UTF-8\"",
              ascii "Content-Transfer-Encoding: base64"])
        ++ (13 :: 10 :: 13 :: 10 :: toBase64 o.body) := by
    have hj2 : joinSep crlf [([] : Bytes), toBase64 o.body] = crlf ++ toBase64 o.body := rfl
    rw [hj2]
    simp [crlf]
  rw [hform, extractBody_join _ _ hHB]
  exact decodeBase64Url_toBase64 _ hok.2.2.2.2.2.2

/-- Witness for C3 on a concrete plain-text message at timestamp 0. -/
theorem plain_roundtrip_witness :
    decodeBase64Url (extractBody (decodeBase64Url (buildRawEmail
        { toAddr := ascii "a@b.com", subject := ascii "Hi", body := ascii "hi there" } 0 0)))
      = ascii "hi there" :=
  plain_roundtrip
    { toAddr := ascii "a@b.com", subject := ascii "Hi", body := ascii "hi there" } 0 0
    ⟨by unfold FieldOk; decide, fun f hf => Option.noConfusion hf,
     fun cs hcs => Option.noConfusion hcs, fun bs hbs => Option.noConfusion hbs,
     fun m hm => Option.noConfusion hm, fun r hr => Option.noConfusion hr, by decide⟩
    rfl rfl

/-- C1. Filter shorthand expansion in `create_filter`. The first half of
the claim holds: `markRead` plus `archive` with no explicit removes yields
the remove set `[UNREAD, INBOX]`. The second half fails on the code: with
`trash: true` and an explicit `addLabelIds` of `[PROJECT]`, the final
assignment from the non-empty `addIds` overwrites the earlier
`trash` assignment, so the action sent to the provider carries the add set
`[PROJECT]` without `TRASH`. -/
theorem create_filter_shorthand_check :
    (createFilterAction { markRead := some true, archive := some true }).removeLabelIds
        = some [ascii "UNREAD", ascii "INBOX"] ∧
    (createFilterAction
        { trash := some true, addLabelIds := some [ascii "PROJECT"] }).addLabelIds
        = some [ascii "PROJECT"] ∧
    (ascii "TRASH") ∉
      ((createFilterAction
        { trash := some true, addLabelIds := some [ascii "PROJECT"] }).addLabelIds.getD []) := by
  refine ⟨by decide, by decide, by decide⟩

/-- C6. Decoder body extraction: the body computed by `parseMessage` agrees
with the extraction rule stated in the spec (first text/plain sub-part,
else first text/html sub-part, else the top-level payload body when there
are no sub-parts, empty string when nothing decodable exists), and
`parseMessage` is a total function, so it returns normally on every
structurally sparse message. -/
theorem parseMessage_body_spec (m : GmailMessage) :
    (parseMessage m).body = specExtractBody m := by
  obtain ⟨id, tid, snip, lab, pl⟩ := m
  cases pl with
  | none => rfl
  | some payload =>
      obtain ⟨hs, parts, pb⟩ := payload
      cases parts with
      | none => rfl
      | some ps =>
          simp only [parseMessage, specExtractBody]
          cases ps.find? (fun p => p.mimeType == some (ascii "text/plain")) <;>
            cases ps.find? (fun p => p.mimeType == some (ascii "text/html")) <;> rfl

/-- C7. Batch cap: with more than 50 message ids, both batch handlers
forward exactly the first 50 ids to the bulk provider call, and the success
text reports the submitted count 50, not the requested count. -/
theorem batch_cap_fifty (ids : List Bytes) (al rl : Option (List Bytes))
    (h : 50 < ids.length) :
    (batch_modify_emails ids al rl).1.ids = ids.take 50 ∧
    (batch_modify_emails ids al rl).1.ids.length = 50 ∧
    (batch_modify_emails ids al rl).2 = ascii "Batch modified 50 emails." ∧
    (batch_delete_emails ids).1 = ids.take 50 ∧
    (batch_delete_emails ids).1.length = 50 ∧
    (batch_delete_emails ids).2 = ascii "Batch deleted 50 emails." := by
  have hlen : (ids.take 50).length = 50 := by
    rw [List.length_take]
    omega
  refine ⟨rfl, hlen, ?_, rfl, hlen, ?_⟩
  · show ascii "Batch modified " ++ natDigits (ids.take 50).length ++ ascii " emails." = _
    rw [hlen]
    decide
  · show ascii "Batch deleted " ++ natDigits (ids.take 50).length ++ ascii " emails." = _
    rw [hlen]
    decide

/-- Witness for C7 at a 75-element input list. -/
theorem batch_cap_fifty_witness :
    50 < (List.replicate 75 ([] : Bytes)).length ∧
    (batch_modify_emails (List.replicate 75 []) none none).2
      = ascii "Batch modified 50 emails." ∧
    (batch_delete_emails (List.replicate 75 [])).2
      = ascii "Batch deleted 50 emails." :=
  ⟨by decide,
   (batch_cap_fifty (List.replicate 75 []) none none (by decide)).2.2.1,
   (batch_cap_fifty (List.replicate 75 []) none none (by decide)).2.2.2.2.2⟩

/-- C9. Reply subject rule of `reply_to_email`: an original subject already
starting with `Re:` is kept as is, any other subject gets `Re: ` prepended,
both at the subject computation and in the options handed to
`buildRawEmail`. -/
theorem reply_subject_rule :
    replySubjectOf
        [{ name := some (ascii "Subject"), value := some (ascii "Re: hello") }]
      = ascii "Re: hello" ∧
    replySubjectOf
        [{ name := some (ascii "Subject"), value := some (ascii "hello") }]
      = ascii "Re: hello" ∧
    (replyToEmailOptions
        [{ name := some (ascii "Subject"), value := some (ascii "Re: hello") }]
        (ascii "b") none none).subject
      = ascii "Re: hello" ∧
    (replyToEmailOptions
        [{ name := some (ascii "Subject"), value := some (ascii "hello") }]
        (ascii "b") none none).subject
      = ascii "Re: hello" := by
  refine ⟨by decide, by decide, by decide, by decide⟩

/-- C8. Webhook status mapping of the send-email route: with a truthy
configured secret, a non-matching Authorization header yields 401 before
anything else; once the bearer check passes, a JSON parse failure surfaces
as 500 with the thrown message, an invalid payload (falsy `to` or
`subject`, or non-string `body`) yields 400 with the validation error
body, missing Gmail credentials yield 500 with the credentials message,
and otherwise the provider outcome maps to `{ok, messageId}` with 200 or
to 500 with the provider error message. -/
theorem webhook_status_mapping (env : WebhookEnv) (req : WebhookRequest)
    (send : SendOutcome) :
    (∀ s, env.WEBHOOK_SECRET = some s → s.isEmpty = false →
        req.authorization ≠ some (ascii "Bearer " ++ s) →
        sendEmailPOST env req send
          = ⟨401, ResponseBody.errBody (ascii "Unauthorized")⟩) ∧
    (authPasses env req →
      (∀ m, req.json = Except.error m →
          sendEmailPOST env req send = ⟨500, ResponseBody.errBody m⟩) ∧
      (∀ p, req.json = Except.ok p →
        (payloadValid p = false →
            sendEmailPOST env req send = ⟨400, ResponseBody.errBody validationMsg⟩) ∧
        (payloadValid p = true →
          (credsPresent env = false →
              sendEmailPOST env req send
                = ⟨500, ResponseBody.errBody credsMissingMsg⟩) ∧
          (credsPresent env = true →
            (∀ mid, send = SendOutcome.ok mid →
                sendEmailPOST env req send = ⟨200, ResponseBody.okBody mid⟩) ∧
            (∀ m, send = SendOutcome.fail m →
                sendEmailPOST env req send = ⟨500, ResponseBody.errBody m⟩))))) := by
  obtain ⟨auth, json⟩ := req
  have hafter : authPasses env ⟨auth, json⟩ →
      sendEmailPOST env ⟨auth, json⟩ send = webhookAfterAuth env ⟨auth, json⟩ send := by
    intro hA
    unfold sendEmailPOST
    cases hsec : env.WEBHOOK_SECRET with
    | none => rfl
    | some s =>
        cases hse : s.isEmpty with
        | true => simp [hse]
        | false =>
            have h2 : auth = some (ascii "Bearer " ++ s) := hA s hsec (by simp [hse])
            simp [hse, h2]
  constructor
  · intro s hsec hse hne
    have hne2 : ¬auth = some (ascii "Bearer " ++ s) := hne
    unfold sendEmailPOST
    rw [hsec]
    simp [hse, hne2]
  · intro hA
    rw [hafter hA]
    constructor
    · intro m hm
      simp only at hm
      subst hm
      rfl
    · intro p hp
      simp only at hp
      subst hp
      constructor
      · intro hval
        have hcond : ¬(truthyStr p.toAddr && truthyStr p.subject
            && p.body.isSome) = true := by
          simp only [payloadValid] at hval
          simp [hval]
        simp [webhookAfterAuth, hcond]
      · intro hval
        simp only [payloadValid] at hval
        constructor
        · intro hcred
          have hcond : ¬(truthyStr env.GMAIL_CLIENT_ID && truthyStr env.GMAIL_CLIENT_SECRET
              && truthyStr env.GMAIL_REFRESH_TOKEN) = true := by
            simp only [credsPresent] at hcred
            simp [hcred]
          simp [webhookAfterAuth, hval, hcond]
        · intro hcred
          simp only [credsPresent] at hcred
          constructor
          · intro mid hsend
            subst hsend
            simp [webhookAfterAuth, hval, hcred]
          · intro m hsend
            subst hsend
            simp [webhookAfterAuth, hval, hcred]

/-- Witness for C8: a rejected bearer token yields 401, and a valid
authorized request with a successful send yields the 200 success body. -/
theorem webhook_status_mapping_witness :
    sendEmailPOST wEnv401 wReq401 (SendOutcome.ok none)
      = ⟨401, ResponseBody.errBody (ascii "Unauthorized")⟩ ∧
    sendEmailPOST wEnvOk wReqOk (SendOutcome.ok (some (ascii "id1")))
      = ⟨200, ResponseBody.okBody (some (ascii "id1"))⟩ := by
  constructor
  · exact (webhook_status_mapping wEnv401 wReq401 (SendOutcome.ok none)).1
      (ascii "k") rfl (by decide) (by decide)
  · exact ((((webhook_status_mapping wEnvOk wReqOk
      (SendOutcome.ok (some (ascii "id1")))).2
        (fun s hs _ => Option.noConfusion hs)).2
        wPayloadOk rfl).2 (by decide)).2 (by decide) |>.1 (some (ascii "id1")) rfl

/-- C10. Every record produced by the `search_emails` result loop has its
body field hard-coded to the empty string, whatever the listed messages
contain. -/
theorem search_results_body_empty (details : List GmailMessage) :
    ∀ r ∈ searchResults details, r.body = [] := by
  intro r hr
  simp only [searchResults, List.mem_map] at hr
  obtain ⟨d, _, rfl⟩ := hr
  rfl

/-- Witness for C10 on a one-message search result. -/
theorem search_results_body_empty_witness :
    ((searchResults [{ id := some (ascii "m"), snippet := some (ascii "s") }]).getD 0
      { id := none, threadId := none, fromAddr := [], toAddr := [], subject := [],
        date := [], snippet := [], body := [], labels := [] }).body = [] :=
  search_results_body_empty
    [{ id := some (ascii "m"), snippet := some (ascii "s") }] _ (by decide)

end GmailMcp
